import Mathlib

/-!
# dregsy: the skopeo relay (`internal/pkg/relays/skopeo/skopeorelay.go`)

A shallow embedding of `NewSkopeoRelay` and `SkopeoRelay.Sync`.

* Go strings are `String`, `[]string` is `List String`, `fmt.Sprintf("x=%s", s)`
  is `"x=" ++ s`.
* A Go `error` is modelled by its message; `nil` is `none`.
* The package level variables `skopeoBinary`, `certsBaseDir`, `skopeoMode`
  are the fields of `Globals`, threaded explicitly.
* Everything `Sync` does to the outside world (registry listing, subprocess
  runs, log lines) is appended, in program order, to a `Trace`.
* Functions that `Sync` calls but that live in other packages (`util`,
  `relays`) are fields of `Collab`; the outcome of a registry listing or of a
  subprocess run may depend on everything that happened before.
-/

namespace Dregsy

/-- Go `error` values, represented by their message. -/
abbrev GoError := String

/-- An `io.Writer` handed to the relay, identified by a number. -/
structure Writer where
  id : Nat
deriving DecidableEq, Repr

/-- The struct `RelayConfig` (source lines 33-37). -/
structure RelayConfig where
  Binary : String
  CertsDir : String
  Mode : String
deriving DecidableEq, Repr

/-- The struct `SkopeoRelay` (source lines 48-50); a nil writer is `none`. -/
structure SkopeoRelay where
  wrOut : Option Writer
deriving DecidableEq, Repr

/-- The package level variables written by `NewSkopeoRelay` and read by `Sync`. -/
structure Globals where
  skopeoBinary : String
  certsBaseDir : String
  skopeoMode : String
deriving DecidableEq, Repr

/-- The constructor `NewSkopeoRelay` (source lines 53-75). A nil `conf` is `none`. -/
def NewSkopeoRelay (conf : Option RelayConfig) (out : Option Writer) (g : Globals) :
    SkopeoRelay × Globals :=
  let relay : SkopeoRelay := { wrOut := none }
  let relay := if out ≠ none then { relay with wrOut := out } else relay
  let g :=
    match conf with
    | none => g
    | some conf =>
      let g := if conf.Binary ≠ "" then { g with skopeoBinary := conf.Binary } else g
      let g := if conf.CertsDir ≠ "" then { g with certsBaseDir := conf.CertsDir } else g
      if conf.Mode ≠ "" then { g with skopeoMode := conf.Mode }
      else { g with skopeoMode := "copy" }
  (relay, g)

/-- Modelled from the spec: the tag selector type `tags.TagSet` of
`relays.SyncOptions`, whose declaration is outside this file. The spec (section 3)
describes it as either an explicit ordered set of tag strings, or an "expand"
marker meaning "resolve all tags present on the source". -/
inductive TagSet where
  | explicit (tags : List String)
  | expand
deriving DecidableEq, Repr

/-- The fields of `relays.SyncOptions` that `Sync` reads. -/
structure SyncOptions where
  SrcRef : String
  SrcAuth : String
  SrcSkipTLSVerify : Bool
  TrgtRef : String
  TrgtAuth : String
  TrgtSkipTLSVerify : Bool
  Tags : TagSet
  Platform : String
  Verbose : Bool
deriving DecidableEq, Repr

/-- What `Sync` does to the outside world, one entry per effect. -/
inductive Event where
  /-- A call `util.ListAllTags(ref, creds, certDir, skipTLS)` and what it returned. -/
  | listTags (ref creds certDir : String) (skipTLS : Bool)
      (result : Except GoError (List String))
  /-- A call `util.RunSkopeo(stdout, stderr, verbose, args...)` and the error it returned. -/
  | run (stdout stderr : Option Writer) (verbose : Bool) (args : List String)
      (result : Option GoError)
  /-- A line `log.WithFields(fields).Info(msg)`. -/
  | logInfo (fields : List (String × String)) (msg : String)
  /-- A line `log.Error(err)`. -/
  | logError (err : GoError)

/-- The effects so far, oldest first. -/
abbrev Trace := List Event

/-- The functions `Sync` calls that are defined in other files. The two that
touch the outside world take the trace so far: their outcome is arbitrary. -/
structure Collab where
  DecodeJSONAuth : String → String
  SplitRef : String → String × String × String
  WithoutPort : String → String
  JoinRefsAndTag : String → String → String → String × String
  AddPlatformOverrides : List String → String → List String
  CertsDirForRegistry : Globals → String → String
  ListAllTags : Trace → String → String → String → Bool → Except GoError (List String)
  RunSkopeo : Trace → Option Writer → Option Writer → Bool → List String → Option GoError

/-- Modelled from the spec: the method `TagSet.Expand(lister)`, defined outside
this file. Spec section 4.3 step 6: for the "expand" marker the lister is queried
and its answer (list or error) is the result; explicit tags are used as-is with
no query. -/
def TagSet.Expand (ts : TagSet)
    (lister : Trace → Except GoError (List String) × Trace) (w : Trace) :
    Except GoError (List String) × Trace :=
  match ts with
  | .explicit tags => (.ok tags, w)
  | .expand => lister w

/-- The decoded source credential, `srcCreds` (source line 99). -/
def syncSrcCreds (c : Collab) (opt : SyncOptions) : String :=
  c.DecodeJSONAuth opt.SrcAuth

/-- The decoded target credential, `destCreds` (source line 100). -/
def syncDestCreds (c : Collab) (opt : SyncOptions) : String :=
  c.DecodeJSONAuth opt.TrgtAuth

/-- The variable `srcCertDir` after source lines 117-122. -/
def syncSrcCertDir (c : Collab) (g : Globals) (opt : SyncOptions) : String :=
  let srcCertDir := ""
  let reg := (c.SplitRef opt.SrcRef).1
  if reg ≠ "" then c.CertsDirForRegistry g reg else srcCertDir

/-- The slice `cmd` after source lines 102-133: the part of the command line
that is the same for every tag. -/
def syncCmd (c : Collab) (g : Globals) (opt : SyncOptions) : List String :=
  let srcCreds := syncSrcCreds c opt
  let destCreds := syncDestCreds c opt
  let cmd := ["--insecure-policy"]
  let cmd := if g.skopeoMode = "sync" then cmd ++ ["sync"] else cmd ++ ["copy"]
  let cmd := if opt.SrcSkipTLSVerify then cmd ++ ["--src-tls-verify=false"] else cmd
  let cmd := if opt.TrgtSkipTLSVerify then cmd ++ ["--dest-tls-verify=false"] else cmd
  let reg := (c.SplitRef opt.SrcRef).1
  let cmd :=
    if reg ≠ "" then cmd ++ ["--src-cert-dir=" ++ c.CertsDirForRegistry g reg] else cmd
  let reg := (c.SplitRef opt.TrgtRef).1
  let cmd :=
    if reg ≠ "" then
      cmd ++ ["--dest-cert-dir=" ++ g.certsBaseDir ++ "/" ++ c.WithoutPort reg]
    else cmd
  let cmd := if srcCreds ≠ "" then cmd ++ ["--src-creds=" ++ srcCreds] else cmd
  let cmd := if destCreds ≠ "" then cmd ++ ["--dest-creds=" ++ destCreds] else cmd
  cmd

/-- The closure handed to `opt.Tags.Expand` (source lines 135-137): one call of
`util.ListAllTags`, recorded in the trace together with its answer. -/
def syncLister (c : Collab) (g : Globals) (opt : SyncOptions) (w : Trace) :
    Except GoError (List String) × Trace :=
  let res := c.ListAllTags w opt.SrcRef (syncSrcCreds c opt) (syncSrcCertDir c g opt)
    opt.SrcSkipTLSVerify
  (res, w ++ [Event.listTags opt.SrcRef (syncSrcCreds c opt) (syncSrcCertDir c g opt)
    opt.SrcSkipTLSVerify res])

/-- The command line `rc` built for tag `t` (source lines 149-159). -/
def syncArgs (c : Collab) (opt : SyncOptions) (cmd : List String) (t : String) :
    List String :=
  let (src, trgt) := c.JoinRefsAndTag opt.SrcRef opt.TrgtRef t
  let rc := cmd ++ ["docker://" ++ src, "docker://" ++ trgt]
  if opt.Platform = "" then rc
  else if opt.Platform = "all" then rc ++ ["--all"]
  else c.AddPlatformOverrides rc opt.Platform

/-- The loop over the tags (source lines 145-165), carrying the trace and the
flag `errs`. -/
def syncLoop (c : Collab) (r : SkopeoRelay) (opt : SyncOptions) (cmd : List String) :
    List String → Trace → Bool → Trace × Bool
  | [], w, errs => (w, errs)
  | t :: ts, w, errs =>
    let w := w ++ [Event.logInfo [("tag", t), ("platform", opt.Platform)] "syncing tag"]
    let rc := syncArgs c opt cmd t
    let res := c.RunSkopeo w r.wrOut r.wrOut opt.Verbose rc
    let w := w ++ [Event.run r.wrOut r.wrOut opt.Verbose rc res]
    match res with
    | some err => syncLoop c r opt cmd ts (w ++ [Event.logError err]) true
    | none => syncLoop c r opt cmd ts w errs

/-- The method `SkopeoRelay.Sync` (source lines 97-172): the returned error
(`none` for nil) and the trace afterwards. -/
def Sync (c : Collab) (g : Globals) (r : SkopeoRelay) (opt : SyncOptions) (w : Trace) :
    Option GoError × Trace :=
  let cmd := syncCmd c g opt
  match TagSet.Expand opt.Tags (syncLister c g opt) w with
  | (.error err, w) => (some ("error expanding tags: " ++ err), w)
  | (.ok tags, w) =>
    let (w, errs) := syncLoop c r opt cmd tags w false
    if errs then (some "errors during sync", w) else (none, w)

/-! ## Reading a trace -/

/-- The command lines of the subprocess runs in a trace, in order. -/
def invocations : Trace → List (List String)
  | [] => []
  | Event.run _ _ _ args _ :: es => args :: invocations es
  | _ :: es => invocations es

/-- The results of the subprocess runs in a trace, in order. -/
def runResults : Trace → List (Option GoError)
  | [] => []
  | Event.run _ _ _ _ res :: es => res :: runResults es
  | _ :: es => runResults es

/-- The argument tuples of the registry listing calls in a trace, in order. -/
def listings : Trace → List (String × String × String × Bool)
  | [] => []
  | Event.listTags ref creds dir skip _ :: es => (ref, creds, dir, skip) :: listings es
  | _ :: es => listings es

/-- The effects `Sync` adds to a trace `w`. -/
def syncEvents (c : Collab) (g : Globals) (r : SkopeoRelay) (opt : SyncOptions)
    (w : Trace) : Trace :=
  (Sync c g r opt w).2.drop w.length

/-- The string `s` begins with `p` (Go: `strings.HasPrefix(s, p)`). -/
def StartsWith (s p : String) : Prop := p.data <+: s.data

instance (s p : String) : Decidable (StartsWith s p) := by
  unfold StartsWith; infer_instance

/-- The value `Sync` returns when the loop ran with the given results. -/
def syncResult (results : List (Option GoError)) : Option GoError :=
  if results.any (fun res => res.isSome) then some "errors during sync" else none

/-! ## Contracts of the platform collaborator -/

/-- Interface contract of `util.AddPlatformOverrides` at platform `p`, weak form:
the command line it returns begins with the one it was given. -/
def AppendsOnly (c : Collab) (p : String) : Prop :=
  ∀ args : List String, args <+: c.AddPlatformOverrides args p

/-- Interface contract of `util.AddPlatformOverrides` at platform `p`: it returns
the command line it was given followed by platform override flags, each starting
with `--override-`. -/
def AppendsOverrides (c : Collab) (p : String) : Prop :=
  ∀ args : List String, ∃ extra : List String,
    c.AddPlatformOverrides args p = args ++ extra ∧
    ∀ t ∈ extra, StartsWith t "--override-"

/-- A token that is one of the options `Sync` itself may add before the
positional arguments: it starts with `--src-` or with `--dest-`. -/
def IsSrcDestFlag (tok : String) : Prop :=
  StartsWith tok "--src-" ∨ StartsWith tok "--dest-"

/-! ## Example values

Stand-ins for the collaborators and a sample request, used to run the model on
concrete inputs. -/

/-- Example reference split: the registry host is what precedes the first `/`. -/
def demoSplitRef (ref : String) : String × String × String :=
  (String.mk (ref.data.takeWhile (fun ch => ch ≠ '/')),
   String.mk ((ref.data.dropWhile (fun ch => ch ≠ '/')).drop 1), "")

/-- Example port stripping: what precedes the first `:`. -/
def demoWithoutPort (reg : String) : String :=
  String.mk (reg.data.takeWhile (fun ch => ch ≠ ':'))

/-- Example collaborators. The registry listing always answers `listing`; a
subprocess run fails exactly on the command lines selected by `failing`. -/
def demoCollab (listing : Except GoError (List String)) (failing : List String → Bool) :
    Collab where
  DecodeJSONAuth := fun blob => blob
  SplitRef := demoSplitRef
  WithoutPort := demoWithoutPort
  JoinRefsAndTag := fun src trgt t => (src ++ ":" ++ t, trgt ++ ":" ++ t)
  AddPlatformOverrides := fun args p =>
    args ++ ["--override-os=" ++ String.mk (p.data.takeWhile (fun ch => ch ≠ '/')),
             "--override-arch="
               ++ String.mk ((p.data.dropWhile (fun ch => ch ≠ '/')).drop 1)]
  CertsDirForRegistry := fun g reg => g.certsBaseDir ++ "/" ++ demoWithoutPort reg
  ListAllTags := fun _ _ _ _ _ => listing
  RunSkopeo := fun _ _ _ _ args => if failing args then some "exit status 1" else none

/-- Example collaborators where every run succeeds and the registry lists `a`, `b`. -/
def demoAllGood : Collab :=
  demoCollab (Except.ok ["a", "b"]) (fun _ => false)

/-- Example collaborators where the run for tag `v1` fails. -/
def demoFailFirst : Collab :=
  demoCollab (Except.ok ["a", "b"])
    (fun args => args.contains "docker://reg.example.com/ns/img:v1")

/-- Example collaborators where the registry listing fails. -/
def demoNoListing : Collab :=
  demoCollab (Except.error "unauthorized") (fun _ => false)

/-- Example package state before any relay was constructed. -/
def demoInitial : Globals :=
  { skopeoBinary := "skopeo", certsBaseDir := "/etc/skopeo/certs.d", skopeoMode := "" }

/-- Example configuration record that leaves every field empty. -/
def demoConf : RelayConfig :=
  { Binary := "", CertsDir := "", Mode := "" }

/-- Example package state after constructing a relay with `demoConf`. -/
def demoGlobals : Globals :=
  (NewSkopeoRelay (some demoConf) (some { id := 1 }) demoInitial).2

/-- Example relay, constructed with `demoConf`. -/
def demoRelay : SkopeoRelay :=
  (NewSkopeoRelay (some demoConf) (some { id := 1 }) demoInitial).1

/-- Example request: two explicit tags, source TLS verification off, source
credentials only, default platform. -/
def demoOptions : SyncOptions :=
  { SrcRef := "reg.example.com/ns/img", SrcAuth := "alice:secret", SrcSkipTLSVerify := true,
    TrgtRef := "mirror.example.com/ns/img", TrgtAuth := "", TrgtSkipTLSVerify := false,
    Tags := TagSet.explicit ["v1", "v2"], Platform := "", Verbose := false }

/-- Example request: all tags of the source, pinned to one platform. -/
def demoExpandOptions : SyncOptions :=
  { demoOptions with Tags := TagSet.expand, Platform := "linux/arm64" }

/-- The command line of the example request for tag `v1`. -/
def demoInvocation : List String :=
  ["--insecure-policy", "copy", "--src-tls-verify=false",
   "--src-cert-dir=/etc/skopeo/certs.d/reg.example.com",
   "--dest-cert-dir=/etc/skopeo/certs.d/mirror.example.com", "--src-creds=alice:secret",
   "docker://reg.example.com/ns/img:v1", "docker://mirror.example.com/ns/img:v1"]

/-- The command line of the expanding example request for tag `a`. -/
def demoExpandInvocation : List String :=
  ["--insecure-policy", "copy", "--src-tls-verify=false",
   "--src-cert-dir=/etc/skopeo/certs.d/reg.example.com",
   "--dest-cert-dir=/etc/skopeo/certs.d/mirror.example.com", "--src-creds=alice:secret",
   "docker://reg.example.com/ns/img:a", "docker://mirror.example.com/ns/img:a",
   "--override-os=linux", "--override-arch=arm64"]

/-! ## Traces of the loop and of `Sync` -/

theorem invocations_append (a b : Trace) :
    invocations (a ++ b) = invocations a ++ invocations b := by
  induction a with
  | nil => rfl
  | cons e es ih => cases e <;> simp [invocations, ih]

theorem runResults_append (a b : Trace) :
    runResults (a ++ b) = runResults a ++ runResults b := by
  induction a with
  | nil => rfl
  | cons e es ih => cases e <;> simp [runResults, ih]

theorem listings_append (a b : Trace) :
    listings (a ++ b) = listings a ++ listings b := by
  induction a with
  | nil => rfl
  | cons e es ih => cases e <;> simp [listings, ih]

/-- What the loop adds to the trace: one run per tag, in order, no listing; and
the flag it returns is set exactly when it was set before or a run failed. -/
theorem syncLoop_spec (c : Collab) (r : SkopeoRelay) (opt : SyncOptions)
    (cmd : List String) :
    ∀ (tags : List String) (w : Trace) (errs : Bool),
      ∃ ev : Trace,
        (syncLoop c r opt cmd tags w errs).1 = w ++ ev ∧
        invocations ev = tags.map (syncArgs c opt cmd) ∧
        listings ev = [] ∧
        (runResults ev).length = tags.length ∧
        (syncLoop c r opt cmd tags w errs).2
          = (errs || (runResults ev).any (fun res => res.isSome)) := by
  intro tags
  induction tags with
  | nil => intro w errs; exact ⟨[], by simp [syncLoop, invocations, listings, runResults]⟩
  | cons t ts ih =>
    intro w errs
    cases hres : c.RunSkopeo
        (w ++ [Event.logInfo [("tag", t), ("platform", opt.Platform)] "syncing tag"])
        r.wrOut r.wrOut opt.Verbose (syncArgs c opt cmd t) with
    | none =>
      obtain ⟨ev, h1, h2, h3, h4, h5⟩ := ih
        (w ++ [Event.logInfo [("tag", t), ("platform", opt.Platform)] "syncing tag"]
          ++ [Event.run r.wrOut r.wrOut opt.Verbose (syncArgs c opt cmd t) none]) errs
      refine ⟨[Event.logInfo [("tag", t), ("platform", opt.Platform)] "syncing tag",
        Event.run r.wrOut r.wrOut opt.Verbose (syncArgs c opt cmd t) none] ++ ev, ?_⟩
      simp only [syncLoop, hres]
      refine ⟨?_, ?_, ?_, ?_, ?_⟩
      · rw [h1]; simp
      · simp [invocations_append, invocations, h2]
      · simp [listings_append, listings, h3]
      · simp [runResults_append, runResults, h4]
      · rw [h5]; simp [runResults_append, runResults]
    | some err =>
      obtain ⟨ev, h1, h2, h3, h4, h5⟩ := ih
        (w ++ [Event.logInfo [("tag", t), ("platform", opt.Platform)] "syncing tag"]
          ++ [Event.run r.wrOut r.wrOut opt.Verbose (syncArgs c opt cmd t) (some err)]
          ++ [Event.logError err]) true
      refine ⟨[Event.logInfo [("tag", t), ("platform", opt.Platform)] "syncing tag",
        Event.run r.wrOut r.wrOut opt.Verbose (syncArgs c opt cmd t) (some err),
        Event.logError err] ++ ev, ?_⟩
      simp only [syncLoop, hres]
      refine ⟨?_, ?_, ?_, ?_, ?_⟩
      · rw [h1]; simp
      · simp [invocations_append, invocations, h2]
      · simp [listings_append, listings, h3]
      · simp [runResults_append, runResults, h4]
      · rw [h5]; simp [runResults_append, runResults]

/-- When expansion yields `tags`: the runs `Sync` adds and the value it returns. -/
theorem sync_ok (c : Collab) (g : Globals) (r : SkopeoRelay) (opt : SyncOptions)
    (w : Trace) (tags : List String)
    (hexp : (TagSet.Expand opt.Tags (syncLister c g opt) w).1 = Except.ok tags) :
    invocations (syncEvents c g r opt w) = tags.map (syncArgs c opt (syncCmd c g opt)) ∧
    (runResults (syncEvents c g r opt w)).length = tags.length ∧
    (Sync c g r opt w).1 = syncResult (runResults (syncEvents c g r opt w)) := by
  cases hT : opt.Tags with
  | explicit ts =>
    simp only [hT, TagSet.Expand] at hexp
    cases hexp
    obtain ⟨ev, h1, h2, _, h4, h5⟩ :=
      syncLoop_spec c r opt (syncCmd c g opt) tags w false
    have hpair : syncLoop c r opt (syncCmd c g opt) tags w false
        = (w ++ ev, (runResults ev).any (fun res => res.isSome)) :=
      Prod.ext h1 (by simpa using h5)
    have hS : Sync c g r opt w = (syncResult (runResults ev), w ++ ev) := by
      simp only [Sync, hT, TagSet.Expand, hpair, syncResult]
      split <;> rfl
    simp [syncEvents, hS, h2, h4]
  | expand =>
    simp only [hT, TagSet.Expand, syncLister] at hexp
    obtain ⟨ev, h1, h2, _, h4, h5⟩ :=
      syncLoop_spec c r opt (syncCmd c g opt) tags
        (w ++ [Event.listTags opt.SrcRef (syncSrcCreds c opt) (syncSrcCertDir c g opt)
          opt.SrcSkipTLSVerify (Except.ok tags)]) false
    have hpair : syncLoop c r opt (syncCmd c g opt) tags
        (w ++ [Event.listTags opt.SrcRef (syncSrcCreds c opt) (syncSrcCertDir c g opt)
          opt.SrcSkipTLSVerify (Except.ok tags)]) false
        = (w ++ ([Event.listTags opt.SrcRef (syncSrcCreds c opt) (syncSrcCertDir c g opt)
              opt.SrcSkipTLSVerify (Except.ok tags)] ++ ev),
            (runResults ev).any (fun res => res.isSome)) :=
      Prod.ext (by rw [h1, List.append_assoc]) (by simpa using h5)
    have hS : Sync c g r opt w
        = (syncResult (runResults ev),
            w ++ ([Event.listTags opt.SrcRef (syncSrcCreds c opt) (syncSrcCertDir c g opt)
              opt.SrcSkipTLSVerify (Except.ok tags)] ++ ev)) := by
      simp only [Sync, hT, TagSet.Expand, syncLister, hexp, hpair, syncResult]
      split <;> rfl
    simp [syncEvents, hS, h2, h4, invocations_append, invocations, runResults_append,
      runResults]

/-- When expansion fails with `e`: `Sync` adds no run and wraps `e`. -/
theorem sync_error (c : Collab) (g : Globals) (r : SkopeoRelay) (opt : SyncOptions)
    (w : Trace) (e : GoError)
    (hexp : (TagSet.Expand opt.Tags (syncLister c g opt) w).1 = Except.error e) :
    opt.Tags = TagSet.expand ∧
    c.ListAllTags w opt.SrcRef (syncSrcCreds c opt) (syncSrcCertDir c g opt)
      opt.SrcSkipTLSVerify = Except.error e ∧
    syncEvents c g r opt w
      = [Event.listTags opt.SrcRef (syncSrcCreds c opt) (syncSrcCertDir c g opt)
          opt.SrcSkipTLSVerify (Except.error e)] ∧
    (Sync c g r opt w).1 = some ("error expanding tags: " ++ e) := by
  cases hT : opt.Tags with
  | explicit ts => simp [hT, TagSet.Expand] at hexp
  | expand =>
    simp only [hT, TagSet.Expand, syncLister] at hexp
    refine ⟨rfl, hexp, ?_, ?_⟩
    · simp [syncEvents, Sync, hT, TagSet.Expand, syncLister, hexp]
    · simp [Sync, hT, TagSet.Expand, syncLister, hexp]

/-- `Sync` only appends to the trace: what it leaves is the trace it was given
followed by `syncEvents`. -/
theorem sync_extends (c : Collab) (g : Globals) (r : SkopeoRelay) (opt : SyncOptions)
    (w : Trace) : (Sync c g r opt w).2 = w ++ syncEvents c g r opt w := by
  have key : ∀ ev, (Sync c g r opt w).2 = w ++ ev →
      (Sync c g r opt w).2 = w ++ syncEvents c g r opt w := by
    intro ev h
    simp [syncEvents, h]
  cases hT : opt.Tags with
  | explicit ts =>
    obtain ⟨ev, h1, _⟩ := syncLoop_spec c r opt (syncCmd c g opt) ts w false
    refine key ev ?_
    simp only [Sync, hT, TagSet.Expand]
    rw [← h1]
    split <;> rfl
  | expand =>
    cases hL : c.ListAllTags w opt.SrcRef (syncSrcCreds c opt) (syncSrcCertDir c g opt)
        opt.SrcSkipTLSVerify with
    | error e =>
      refine key [Event.listTags opt.SrcRef (syncSrcCreds c opt) (syncSrcCertDir c g opt)
        opt.SrcSkipTLSVerify (Except.error e)] ?_
      simp [Sync, hT, TagSet.Expand, syncLister, hL]
    | ok tags =>
      obtain ⟨ev, h1, _⟩ := syncLoop_spec c r opt (syncCmd c g opt) tags
        (w ++ [Event.listTags opt.SrcRef (syncSrcCreds c opt) (syncSrcCertDir c g opt)
          opt.SrcSkipTLSVerify (Except.ok tags)]) false
      refine key ([Event.listTags opt.SrcRef (syncSrcCreds c opt) (syncSrcCertDir c g opt)
        opt.SrcSkipTLSVerify (Except.ok tags)] ++ ev) ?_
      simp only [Sync, hT, TagSet.Expand, syncLister, hL]
      rw [← List.append_assoc, ← h1]
      split <;> rfl

/-! ## Tokens of the command line -/

theorem AppendsOverrides.appendsOnly {c : Collab} {p : String}
    (h : AppendsOverrides c p) : AppendsOnly c p := by
  intro args
  obtain ⟨extra, he, _⟩ := h args
  exact ⟨extra, he.symm⟩

theorem startsWith_append (a b : String) : StartsWith (a ++ b) a := by
  unfold StartsWith
  rw [String.data_append]
  exact List.prefix_append _ _

theorem mem_ite_append {b : Prop} [Decidable b] (l : List String) (x tok : String) :
    tok ∈ (if b then l ++ [x] else l) ↔ tok ∈ l ∨ (b ∧ tok = x) := by
  by_cases hb : b <;> simp [hb]

/-- Membership in the base command, option by option. -/
theorem mem_syncCmd (c : Collab) (g : Globals) (opt : SyncOptions) (tok : String) :
    tok ∈ syncCmd c g opt ↔
      tok = "--insecure-policy" ∨
      tok = (if g.skopeoMode = "sync" then "sync" else "copy") ∨
      (opt.SrcSkipTLSVerify = true ∧ tok = "--src-tls-verify=false") ∨
      (opt.TrgtSkipTLSVerify = true ∧ tok = "--dest-tls-verify=false") ∨
      ((c.SplitRef opt.SrcRef).1 ≠ "" ∧
        tok = "--src-cert-dir=" ++ c.CertsDirForRegistry g (c.SplitRef opt.SrcRef).1) ∨
      ((c.SplitRef opt.TrgtRef).1 ≠ "" ∧
        tok = "--dest-cert-dir=" ++ g.certsBaseDir ++ "/"
          ++ c.WithoutPort (c.SplitRef opt.TrgtRef).1) ∨
      (syncSrcCreds c opt ≠ "" ∧ tok = "--src-creds=" ++ syncSrcCreds c opt) ∨
      (syncDestCreds c opt ≠ "" ∧ tok = "--dest-creds=" ++ syncDestCreds c opt) := by
  have hmode : tok ∈ (if g.skopeoMode = "sync" then ["--insecure-policy"] ++ ["sync"]
        else ["--insecure-policy"] ++ ["copy"]) ↔
      tok = "--insecure-policy" ∨
        tok = (if g.skopeoMode = "sync" then "sync" else "copy") := by
    by_cases hm : g.skopeoMode = "sync" <;> simp [hm]
  simp only [syncCmd, mem_ite_append, hmode, or_assoc, Bool.coe_iff_coe]

/-- The command line for one tag, with the pair returned by `JoinRefsAndTag`
projected. -/
theorem syncArgs_eq (c : Collab) (opt : SyncOptions) (cmd : List String) (t : String) :
    syncArgs c opt cmd t =
      if opt.Platform = "" then
        cmd ++ ["docker://" ++ (c.JoinRefsAndTag opt.SrcRef opt.TrgtRef t).1,
                "docker://" ++ (c.JoinRefsAndTag opt.SrcRef opt.TrgtRef t).2]
      else if opt.Platform = "all" then
        cmd ++ ["docker://" ++ (c.JoinRefsAndTag opt.SrcRef opt.TrgtRef t).1,
                "docker://" ++ (c.JoinRefsAndTag opt.SrcRef opt.TrgtRef t).2] ++ ["--all"]
      else
        c.AddPlatformOverrides
          (cmd ++ ["docker://" ++ (c.JoinRefsAndTag opt.SrcRef opt.TrgtRef t).1,
                   "docker://" ++ (c.JoinRefsAndTag opt.SrcRef opt.TrgtRef t).2])
          opt.Platform := rfl

/-- Every command line begins with the base command and the two positional
arguments, provided the platform collaborator only appends. -/
theorem syncArgs_begins (c : Collab) (opt : SyncOptions) (cmd : List String) (t : String)
    (hplat : opt.Platform ≠ "" → opt.Platform ≠ "all" → AppendsOnly c opt.Platform) :
    cmd ++ ["docker://" ++ (c.JoinRefsAndTag opt.SrcRef opt.TrgtRef t).1,
            "docker://" ++ (c.JoinRefsAndTag opt.SrcRef opt.TrgtRef t).2]
      <+: syncArgs c opt cmd t := by
  rw [syncArgs_eq]
  by_cases h1 : opt.Platform = ""
  · simp [h1]
  · by_cases h2 : opt.Platform = "all"
    · simp only [h1, h2, if_true, if_false]
      exact List.prefix_append _ _
    · simp only [h1, h2, if_false]
      exact hplat h1 h2 _

theorem not_flag_docker (x : String) : ¬ IsSrcDestFlag ("docker://" ++ x) := by
  simp [IsSrcDestFlag, StartsWith, String.data_append]

theorem not_flag_all : ¬ IsSrcDestFlag "--all" := by
  simp [IsSrcDestFlag, StartsWith]

theorem not_flag_override (t : String) (h : StartsWith t "--override-") :
    ¬ IsSrcDestFlag t := by
  obtain ⟨r, hr⟩ := h
  rintro (⟨r2, h2⟩ | ⟨r2, h2⟩) <;>
    · rw [← hr] at h2
      simp at h2

/-- A `--src-`/`--dest-` option is in the command line of a tag exactly when it
is in the base command. -/
theorem flag_mem_syncArgs (c : Collab) (opt : SyncOptions) (cmd : List String)
    (t tok : String)
    (hplat : opt.Platform ≠ "" → opt.Platform ≠ "all" → AppendsOverrides c opt.Platform)
    (htok : IsSrcDestFlag tok) :
    tok ∈ syncArgs c opt cmd t ↔ tok ∈ cmd := by
  have hA : tok ≠ "docker://" ++ (c.JoinRefsAndTag opt.SrcRef opt.TrgtRef t).1 :=
    fun h => not_flag_docker _ (h ▸ htok)
  have hB : tok ≠ "docker://" ++ (c.JoinRefsAndTag opt.SrcRef opt.TrgtRef t).2 :=
    fun h => not_flag_docker _ (h ▸ htok)
  have hC : tok ≠ "--all" := fun h => not_flag_all (h ▸ htok)
  rw [syncArgs_eq]
  by_cases h1 : opt.Platform = ""
  · simp [h1, hA, hB]
  · by_cases h2 : opt.Platform = "all"
    · simp [h2, hA, hB, hC]
    · obtain ⟨extra, he, hx⟩ := hplat h1 h2
        (cmd ++ ["docker://" ++ (c.JoinRefsAndTag opt.SrcRef opt.TrgtRef t).1,
                 "docker://" ++ (c.JoinRefsAndTag opt.SrcRef opt.TrgtRef t).2])
      have hD : tok ∉ extra := fun h => not_flag_override tok (hx tok h) htok
      simp [h1, h2, he, hA, hB, hD]

/-- Each run `Sync` adds is the command line built for one of the expanded tags. -/
theorem mem_invocations_sync (c : Collab) (g : Globals) (r : SkopeoRelay)
    (opt : SyncOptions) (w : Trace) (inv : List String)
    (hinv : inv ∈ invocations (syncEvents c g r opt w)) :
    ∃ tags, (TagSet.Expand opt.Tags (syncLister c g opt) w).1 = Except.ok tags ∧
      ∃ t ∈ tags, inv = syncArgs c opt (syncCmd c g opt) t := by
  cases hexp : (TagSet.Expand opt.Tags (syncLister c g opt) w).1 with
  | error e =>
    obtain ⟨_, _, hev, _⟩ := sync_error c g r opt w e hexp
    simp [hev, invocations] at hinv
  | ok tags =>
    obtain ⟨hi, _, _⟩ := sync_ok c g r opt w tags hexp
    rw [hi, List.mem_map] at hinv
    obtain ⟨t, ht, rfl⟩ := hinv
    exact ⟨tags, rfl, t, ht, rfl⟩


theorem getElem?_invocations (c : Collab) (g : Globals) (r : SkopeoRelay)
    (opt : SyncOptions) (w : Trace) (tags : List String)
    (hexp : (TagSet.Expand opt.Tags (syncLister c g opt) w).1 = Except.ok tags)
    (i : Nat) (hi : i < tags.length) :
    (invocations (syncEvents c g r opt w))[i]?
      = some (syncArgs c opt (syncCmd c g opt) tags[i]) := by
  rw [(sync_ok c g r opt w tags hexp).1, List.getElem?_map, List.getElem?_eq_getElem hi]
  rfl

theorem begins_ite {p : Prop} [Decidable p] {a b : String} {l : List String} (x : String)
    (h : ∃ rest, l = a :: b :: rest) :
    ∃ rest, (if p then l ++ [x] else l) = a :: b :: rest := by
  obtain ⟨rest, rfl⟩ := h
  by_cases hp : p <;> simp [hp]

/-- The base command begins with `--insecure-policy` and the sub-operation. -/
theorem syncCmd_begins (c : Collab) (g : Globals) (opt : SyncOptions) :
    ∃ rest, syncCmd c g opt
      = "--insecure-policy" :: (if g.skopeoMode = "sync" then "sync" else "copy") :: rest := by
  have hmode : ∃ rest, (if g.skopeoMode = "sync" then ["--insecure-policy"] ++ ["sync"]
        else ["--insecure-policy"] ++ ["copy"])
      = "--insecure-policy" :: (if g.skopeoMode = "sync" then "sync" else "copy") :: rest := by
    by_cases hm : g.skopeoMode = "sync" <;> simp [hm]
  exact begins_ite _ (begins_ite _ (begins_ite _ (begins_ite _ (begins_ite _
    (begins_ite _ hmode)))))

/-- A `--src-`/`--dest-` option is in a command line `Sync` runs exactly when it
is in the base command. -/
theorem flag_mem_invocation (c : Collab) (g : Globals) (r : SkopeoRelay)
    (opt : SyncOptions) (w : Trace) (inv : List String)
    (hplat : opt.Platform ≠ "" → opt.Platform ≠ "all" → AppendsOverrides c opt.Platform)
    (hinv : inv ∈ invocations (syncEvents c g r opt w))
    (tok : String) (htok : IsSrcDestFlag tok) :
    tok ∈ inv ↔ tok ∈ syncCmd c g opt := by
  obtain ⟨tags, _, t, _, rfl⟩ := mem_invocations_sync c g r opt w inv hinv
  exact flag_mem_syncArgs c opt (syncCmd c g opt) t tok hplat htok

/-- No token of the base command is a platform flag. -/
theorem syncCmd_no_platform_flag (c : Collab) (g : Globals) (opt : SyncOptions)
    (tok : String) (hmem : tok ∈ syncCmd c g opt) :
    tok ≠ "--all" ∧ ¬ StartsWith tok "--override-" := by
  rw [mem_syncCmd] at hmem
  rcases hmem with h | h | ⟨_, h⟩ | ⟨_, h⟩ | ⟨_, h⟩ | ⟨_, h⟩ | ⟨_, h⟩ | ⟨_, h⟩
  · subst h; simp [StartsWith, String.ext_iff]
  · subst h; by_cases hm : g.skopeoMode = "sync" <;> simp [hm, StartsWith, String.ext_iff]
  · subst h; simp [StartsWith, String.ext_iff]
  · subst h; simp [StartsWith, String.ext_iff]
  · subst h; simp [StartsWith, String.ext_iff, String.data_append]
  · subst h; simp [StartsWith, String.ext_iff, String.data_append]
  · subst h; simp [StartsWith, String.ext_iff, String.data_append]
  · subst h; simp [StartsWith, String.ext_iff, String.data_append]

/-- The registry listing calls `Sync` adds: one for the expand marker, with the
arguments of the closure, and none for explicit tags. -/
theorem sync_listings (c : Collab) (g : Globals) (r : SkopeoRelay)
    (opt : SyncOptions) (w : Trace) :
    listings (syncEvents c g r opt w) =
      match opt.Tags with
      | TagSet.expand =>
        [(opt.SrcRef, syncSrcCreds c opt, syncSrcCertDir c g opt, opt.SrcSkipTLSVerify)]
      | TagSet.explicit _ => [] := by
  cases hT : opt.Tags with
  | explicit ts =>
    obtain ⟨ev, h1, _, h3, _, _⟩ := syncLoop_spec c r opt (syncCmd c g opt) ts w false
    have h2 : (Sync c g r opt w).2 = w ++ ev := by
      simp only [Sync, hT, TagSet.Expand]
      rw [← h1]
      split <;> rfl
    simp [syncEvents, h2, h3]
  | expand =>
    cases hL : c.ListAllTags w opt.SrcRef (syncSrcCreds c opt) (syncSrcCertDir c g opt)
        opt.SrcSkipTLSVerify with
    | error e =>
      have hexp : (TagSet.Expand opt.Tags (syncLister c g opt) w).1 = Except.error e := by
        simp [hT, TagSet.Expand, syncLister, hL]
      obtain ⟨_, _, hev, _⟩ := sync_error c g r opt w e hexp
      simp [hev, listings]
    | ok tags =>
      obtain ⟨ev, h1, _, h3, _, _⟩ := syncLoop_spec c r opt (syncCmd c g opt) tags
        (w ++ [Event.listTags opt.SrcRef (syncSrcCreds c opt) (syncSrcCertDir c g opt)
          opt.SrcSkipTLSVerify (Except.ok tags)]) false
      have h2 : (Sync c g r opt w).2
          = w ++ ([Event.listTags opt.SrcRef (syncSrcCreds c opt) (syncSrcCertDir c g opt)
              opt.SrcSkipTLSVerify (Except.ok tags)] ++ ev) := by
        simp only [Sync, hT, TagSet.Expand, syncLister, hL]
        rw [← List.append_assoc, ← h1]
        split <;> rfl
      simp [syncEvents, h2, h3, listings_append, listings]

/-- The example collaborators satisfy the contract of the platform collaborator. -/
theorem demoCollab_appendsOverrides (listing : Except GoError (List String))
    (failing : List String → Bool) (p : String) :
    AppendsOverrides (demoCollab listing failing) p := by
  intro args
  refine ⟨_, rfl, ?_⟩
  intro t ht
  simp only [List.mem_cons, List.mem_singleton, List.not_mem_nil, or_false] at ht
  rcases ht with h | h <;>
    · subst h
      exact startsWith_append _ _

/-! ## The claims -/

/-- C1: when the tag selector resolves to the sequence `tags` (explicit tags or the
registry listing), then whatever the subprocess runs return, `Sync` runs the
transfer tool exactly `tags.length` times, the `i`-th run being the command line
built for the `i`-th tag; replacing the subprocess collaborator by any other
leaves the list of command lines unchanged, so a failed run does not prevent the
next one. The `i`-th command line contains `"docker://" ++ source` immediately
followed by `"docker://" ++ target`, the pair being `JoinRefsAndTag(SrcRef,
TrgtRef, t_i)`; for a platform other than `""` and `"all"` this last part uses
that the platform collaborator only appends to the command line. -/
theorem C1_one_invocation_per_tag (c : Collab) (g : Globals) (r : SkopeoRelay)
    (opt : SyncOptions) (w : Trace) (tags : List String)
    (hexp : (TagSet.Expand opt.Tags (syncLister c g opt) w).1 = Except.ok tags) :
    (invocations (syncEvents c g r opt w)).length = tags.length ∧
    (∀ (i : Nat) (hi : i < tags.length),
      (invocations (syncEvents c g r opt w))[i]?
        = some (syncArgs c opt (syncCmd c g opt) tags[i])) ∧
    (∀ run, invocations (syncEvents { c with RunSkopeo := run } g r opt w)
        = invocations (syncEvents c g r opt w)) ∧
    ((opt.Platform ≠ "" → opt.Platform ≠ "all" → AppendsOnly c opt.Platform) →
      ∀ (i : Nat) (hi : i < tags.length),
        ∃ inv, (invocations (syncEvents c g r opt w))[i]? = some inv ∧
          ["docker://" ++ (c.JoinRefsAndTag opt.SrcRef opt.TrgtRef tags[i]).1,
           "docker://" ++ (c.JoinRefsAndTag opt.SrcRef opt.TrgtRef tags[i]).2]
            <:+: inv) := by
  refine ⟨?_, ?_, ?_, ?_⟩
  · rw [(sync_ok c g r opt w tags hexp).1, List.length_map]
  · exact fun i hi => getElem?_invocations c g r opt w tags hexp i hi
  · intro run
    have hexp2 : (TagSet.Expand opt.Tags (syncLister { c with RunSkopeo := run } g opt) w).1
        = Except.ok tags := hexp
    rw [(sync_ok c g r opt w tags hexp).1, (sync_ok _ g r opt w tags hexp2).1]
    rfl
  · intro hplat i hi
    refine ⟨_, getElem?_invocations c g r opt w tags hexp i hi, ?_⟩
    obtain ⟨post, hpost⟩ := syncArgs_begins c opt (syncCmd c g opt) tags[i] hplat
    exact ⟨syncCmd c g opt, post, by rw [← hpost]⟩

/-- C1 on the example request, with the run for `v1` failing: both tags are still
run, in order. -/
theorem C1_witness :
    (TagSet.Expand demoOptions.Tags (syncLister demoFailFirst demoGlobals demoOptions) []).1
      = Except.ok ["v1", "v2"] ∧
    runResults (syncEvents demoFailFirst demoGlobals demoRelay demoOptions [])
      = [some "exit status 1", none] ∧
    (invocations (syncEvents demoFailFirst demoGlobals demoRelay demoOptions [])).length = 2 ∧
    (invocations (syncEvents demoFailFirst demoGlobals demoRelay demoOptions []))[1]?
      = some (syncArgs demoFailFirst demoOptions
          (syncCmd demoFailFirst demoGlobals demoOptions) "v2") :=
  ⟨rfl, by decide,
    (C1_one_invocation_per_tag demoFailFirst demoGlobals demoRelay demoOptions []
      ["v1", "v2"] rfl).1,
    (C1_one_invocation_per_tag demoFailFirst demoGlobals demoRelay demoOptions []
      ["v1", "v2"] rfl).2.1 1 (by decide)⟩

/-- C2: when tag expansion succeeds with `tags`, there is one run result per tag,
and `Sync` returns the error `errors during sync` exactly when at least one of
these runs returned an error; when none did it returns nil; with no tags it
returns nil and runs nothing. The returned value is nil or that one error, so it
does not depend on which runs failed or how many. -/
theorem C2_aggregated_error (c : Collab) (g : Globals) (r : SkopeoRelay)
    (opt : SyncOptions) (w : Trace) (tags : List String)
    (hexp : (TagSet.Expand opt.Tags (syncLister c g opt) w).1 = Except.ok tags) :
    (runResults (syncEvents c g r opt w)).length = tags.length ∧
    ((Sync c g r opt w).1 = some "errors during sync" ↔
      ∃ res ∈ runResults (syncEvents c g r opt w), res ≠ none) ∧
    ((∀ res ∈ runResults (syncEvents c g r opt w), res = none) →
      (Sync c g r opt w).1 = none) ∧
    (tags = [] → (Sync c g r opt w).1 = none ∧ invocations (syncEvents c g r opt w) = []) ∧
    ((Sync c g r opt w).1 = none ∨ (Sync c g r opt w).1 = some "errors during sync") := by
  obtain ⟨hi, hl, hres⟩ := sync_ok c g r opt w tags hexp
  have hany : (runResults (syncEvents c g r opt w)).any (fun res => res.isSome) = true ↔
      ∃ res ∈ runResults (syncEvents c g r opt w), res ≠ none := by
    simp [List.any_eq_true, Option.isSome_iff_ne_none]
  refine ⟨hl, ?_, ?_, ?_, ?_⟩
  · rw [hres, syncResult, ← hany]
    by_cases hb : (runResults (syncEvents c g r opt w)).any (fun res => res.isSome) = true <;>
      simp [hb]
  · intro hall
    rw [hres, syncResult, if_neg]
    rw [hany]
    rintro ⟨res, hmem, hne⟩
    exact hne (hall res hmem)
  · intro ht
    subst ht
    have h0 : runResults (syncEvents c g r opt w) = [] :=
      List.length_eq_zero.mp (by simpa using hl)
    exact ⟨by rw [hres, h0]; rfl, by simpa using hi⟩
  · rw [hres, syncResult]
    by_cases hb : (runResults (syncEvents c g r opt w)).any (fun res => res.isSome) = true <;>
      simp [hb]

/-- C2 on the example request, with the run for `v1` failing: the aggregated error
is returned. -/
theorem C2_witness :
    (TagSet.Expand demoOptions.Tags (syncLister demoFailFirst demoGlobals demoOptions) []).1
      = Except.ok ["v1", "v2"] ∧
    (Sync demoFailFirst demoGlobals demoRelay demoOptions []).1 = some "errors during sync" :=
  ⟨rfl,
    (C2_aggregated_error demoFailFirst demoGlobals demoRelay demoOptions []
      ["v1", "v2"] rfl).2.1.mpr ⟨some "exit status 1", by decide, by decide⟩⟩

/-- C3: when tag expansion fails with error `e`, which is then the error the
registry listing returned, `Sync` runs the transfer tool zero times and returns
the error `error expanding tags: e`, for every request and every configuration. -/
theorem C3_expansion_failure (c : Collab) (g : Globals) (r : SkopeoRelay)
    (opt : SyncOptions) (w : Trace) (e : GoError)
    (hexp : (TagSet.Expand opt.Tags (syncLister c g opt) w).1 = Except.error e) :
    c.ListAllTags w opt.SrcRef (c.DecodeJSONAuth opt.SrcAuth) (syncSrcCertDir c g opt)
      opt.SrcSkipTLSVerify = Except.error e ∧
    invocations (syncEvents c g r opt w) = [] ∧
    (Sync c g r opt w).1 = some ("error expanding tags: " ++ e) := by
  obtain ⟨_, hl, hev, hres⟩ := sync_error c g r opt w e hexp
  exact ⟨hl, by simp [hev, invocations], hres⟩

/-- C3 on the expanding example request with a registry that answers
`unauthorized`. -/
theorem C3_witness :
    (TagSet.Expand demoExpandOptions.Tags
      (syncLister demoNoListing demoGlobals demoExpandOptions) []).1
      = Except.error "unauthorized" ∧
    invocations (syncEvents demoNoListing demoGlobals demoRelay demoExpandOptions []) = [] ∧
    (Sync demoNoListing demoGlobals demoRelay demoExpandOptions []).1
      = some ("error expanding tags: " ++ "unauthorized") :=
  ⟨rfl,
    (C3_expansion_failure demoNoListing demoGlobals demoRelay demoExpandOptions []
      "unauthorized" rfl).2⟩

/-- C4: every command line `Sync` runs starts with `--insecure-policy` followed by
the sub-operation token, which is `sync` exactly when the configured mode is the
string `sync`, and `copy` for every other mode string (`copy`, the empty string,
anything else). For a platform other than `""` and `"all"` this uses that the
platform collaborator only appends to the command line. -/
theorem C4_sub_operation (c : Collab) (g : Globals) (r : SkopeoRelay)
    (opt : SyncOptions) (w : Trace) (inv : List String)
    (hplat : opt.Platform ≠ "" → opt.Platform ≠ "all" → AppendsOnly c opt.Platform)
    (hinv : inv ∈ invocations (syncEvents c g r opt w)) :
    ∃ sub rest, inv = "--insecure-policy" :: sub :: rest ∧
      (sub = "sync" ↔ g.skopeoMode = "sync") ∧
      (g.skopeoMode ≠ "sync" → sub = "copy") := by
  obtain ⟨tags, _, t, _, rfl⟩ := mem_invocations_sync c g r opt w inv hinv
  obtain ⟨post, hpost⟩ := syncArgs_begins c opt (syncCmd c g opt) t hplat
  obtain ⟨rest, hrest⟩ := syncCmd_begins c g opt
  refine ⟨if g.skopeoMode = "sync" then "sync" else "copy", ?_, ?_, ?_, ?_⟩
  · exact rest ++ ["docker://" ++ (c.JoinRefsAndTag opt.SrcRef opt.TrgtRef t).1,
      "docker://" ++ (c.JoinRefsAndTag opt.SrcRef opt.TrgtRef t).2] ++ post
  · rw [← hpost, hrest]; simp
  · by_cases hm : g.skopeoMode = "sync" <;> simp [hm]
  · intro hm; simp [hm]

/-- C4 on the expanding example request (platform `linux/arm64`) with the mode set
to `sync`. -/
theorem C4_witness :
    ("--insecure-policy" :: "sync" :: demoExpandInvocation.drop 2)
      ∈ invocations (syncEvents demoAllGood { demoGlobals with skopeoMode := "sync" }
          demoRelay demoExpandOptions []) ∧
    ∃ sub rest,
      ("--insecure-policy" :: "sync" :: demoExpandInvocation.drop 2)
        = "--insecure-policy" :: sub :: rest ∧
      (sub = "sync" ↔ "sync" = "sync") ∧ ("sync" ≠ "sync" → sub = "copy") :=
  ⟨by decide,
    C4_sub_operation demoAllGood { demoGlobals with skopeoMode := "sync" } demoRelay
      demoExpandOptions [] _
      (fun _ _ => (demoCollab_appendsOverrides _ _ _).appendsOnly) (by decide)⟩

/-- C5: in every command line `Sync` runs, `--src-tls-verify=false` is present
exactly when `SrcSkipTLSVerify` is set and `--dest-tls-verify=false` is present
exactly when `TrgtSkipTLSVerify` is set, independently of each other and of the
refs, tags and credentials; so with `SrcSkipTLSVerify = true` and
`TrgtSkipTLSVerify = false` the first is present and the second is not. This
holds for platform `""` and `"all"`, and for any other platform when the
platform collaborator appends only `--override-` flags. -/
theorem C5_tls_flags (c : Collab) (g : Globals) (r : SkopeoRelay)
    (opt : SyncOptions) (w : Trace) (inv : List String)
    (hplat : opt.Platform ≠ "" → opt.Platform ≠ "all" → AppendsOverrides c opt.Platform)
    (hinv : inv ∈ invocations (syncEvents c g r opt w)) :
    ("--src-tls-verify=false" ∈ inv ↔ opt.SrcSkipTLSVerify = true) ∧
    ("--dest-tls-verify=false" ∈ inv ↔ opt.TrgtSkipTLSVerify = true) ∧
    (opt.SrcSkipTLSVerify = true → opt.TrgtSkipTLSVerify = false →
      "--src-tls-verify=false" ∈ inv ∧ "--dest-tls-verify=false" ∉ inv) := by
  have hs : "--src-tls-verify=false" ∈ inv ↔ opt.SrcSkipTLSVerify = true := by
    rw [flag_mem_invocation c g r opt w inv hplat hinv _ (by simp [IsSrcDestFlag, StartsWith]),
      mem_syncCmd]
    by_cases hm : g.skopeoMode = "sync" <;>
      simp [hm, String.ext_iff, String.data_append]
  have hd : "--dest-tls-verify=false" ∈ inv ↔ opt.TrgtSkipTLSVerify = true := by
    rw [flag_mem_invocation c g r opt w inv hplat hinv _ (by simp [IsSrcDestFlag, StartsWith]),
      mem_syncCmd]
    by_cases hm : g.skopeoMode = "sync" <;>
      simp [hm, String.ext_iff, String.data_append]
  refine ⟨hs, hd, fun h1 h2 => ⟨hs.mpr h1, fun h => ?_⟩⟩
  rw [hd.mp h] at h2
  exact Bool.noConfusion h2

/-- C5 on the example request (source TLS verification off, target on,
platform `""`). -/
theorem C5_witness :
    demoInvocation ∈ invocations (syncEvents demoAllGood demoGlobals demoRelay demoOptions [])
    ∧ "--src-tls-verify=false" ∈ demoInvocation
    ∧ "--dest-tls-verify=false" ∉ demoInvocation :=
  ⟨by decide,
    (C5_tls_flags demoAllGood demoGlobals demoRelay demoOptions [] demoInvocation
      (fun h => absurd rfl h) (by decide)).2.2 rfl rfl⟩

/-- C6: when tag expansion succeeds, the `i`-th command line `Sync` runs is, for
platform `"all"`, the base command, the two positional references and then
`--all`; for platform `""`, the base command and the two positional references,
with no token `--all` and no token starting with `--override-`; for any other
platform `p`, exactly `AddPlatformOverrides(base ++ [source, target], p)`. -/
theorem C6_platform (c : Collab) (g : Globals) (r : SkopeoRelay)
    (opt : SyncOptions) (w : Trace) (tags : List String)
    (hexp : (TagSet.Expand opt.Tags (syncLister c g opt) w).1 = Except.ok tags)
    (i : Nat) (hi : i < tags.length) :
    ∃ inv, (invocations (syncEvents c g r opt w))[i]? = some inv ∧
      (opt.Platform = "all" →
        inv = syncCmd c g opt
          ++ ["docker://" ++ (c.JoinRefsAndTag opt.SrcRef opt.TrgtRef tags[i]).1,
              "docker://" ++ (c.JoinRefsAndTag opt.SrcRef opt.TrgtRef tags[i]).2]
          ++ ["--all"]) ∧
      (opt.Platform = "" →
        inv = syncCmd c g opt
          ++ ["docker://" ++ (c.JoinRefsAndTag opt.SrcRef opt.TrgtRef tags[i]).1,
              "docker://" ++ (c.JoinRefsAndTag opt.SrcRef opt.TrgtRef tags[i]).2] ∧
        ∀ tok ∈ inv, tok ≠ "--all" ∧ ¬ StartsWith tok "--override-") ∧
      (opt.Platform ≠ "" → opt.Platform ≠ "all" →
        inv = c.AddPlatformOverrides
          (syncCmd c g opt
            ++ ["docker://" ++ (c.JoinRefsAndTag opt.SrcRef opt.TrgtRef tags[i]).1,
                "docker://" ++ (c.JoinRefsAndTag opt.SrcRef opt.TrgtRef tags[i]).2])
          opt.Platform) := by
  refine ⟨_, getElem?_invocations c g r opt w tags hexp i hi, ?_, ?_, ?_⟩
  · intro hp
    rw [syncArgs_eq]; simp [hp]
  · intro hp
    have he : syncArgs c opt (syncCmd c g opt) tags[i] = syncCmd c g opt
          ++ ["docker://" ++ (c.JoinRefsAndTag opt.SrcRef opt.TrgtRef tags[i]).1,
              "docker://" ++ (c.JoinRefsAndTag opt.SrcRef opt.TrgtRef tags[i]).2] := by
      rw [syncArgs_eq]; simp [hp]
    refine ⟨he, ?_⟩
    intro tok hmem
    rw [he, List.mem_append] at hmem
    rcases hmem with h | h
    · exact syncCmd_no_platform_flag c g opt tok h
    · simp only [List.mem_cons, List.mem_singleton, List.not_mem_nil, or_false] at h
      rcases h with h | h <;>
        · subst h; simp [StartsWith, String.ext_iff, String.data_append]
  · intro h1 h2
    rw [syncArgs_eq]; simp [h1, h2]

/-- C6 on the example request with platform `all`, second tag. -/
theorem C6_witness :
    (TagSet.Expand { demoOptions with Platform := "all" }.Tags
      (syncLister demoAllGood demoGlobals { demoOptions with Platform := "all" }) []).1
      = Except.ok ["v1", "v2"] ∧
    1 < ["v1", "v2"].length ∧
    (invocations (syncEvents demoAllGood demoGlobals demoRelay
        { demoOptions with Platform := "all" } []))[1]?
      = some (syncCmd demoAllGood demoGlobals { demoOptions with Platform := "all" }
          ++ ["docker://reg.example.com/ns/img:v2", "docker://mirror.example.com/ns/img:v2"]
          ++ ["--all"]) := by
  refine ⟨rfl, by decide, ?_⟩
  obtain ⟨inv, h1, h2, _, _⟩ :=
    C6_platform demoAllGood demoGlobals demoRelay { demoOptions with Platform := "all" } []
      ["v1", "v2"] rfl 1 (by decide)
  rw [h1, h2 rfl]
  rfl

/-- C7: in every command line `Sync` runs, `"--src-creds=" ++ c` is present
exactly when the decoded source credential `c` is non-empty, and
`"--dest-creds=" ++ d` is present exactly when the decoded target credential `d`
is non-empty, independently. A token starting with `--src-creds=` occurs only
when `c` is non-empty and is then exactly `"--src-creds=" ++ c`; likewise for
`--dest-creds=` and `d`, so with an empty `d` no token starts with
`--dest-creds=`. This holds for platform `""` and `"all"`, and for any other
platform when the platform collaborator appends only `--override-` flags. -/
theorem C7_credentials (c : Collab) (g : Globals) (r : SkopeoRelay)
    (opt : SyncOptions) (w : Trace) (inv : List String)
    (hplat : opt.Platform ≠ "" → opt.Platform ≠ "all" → AppendsOverrides c opt.Platform)
    (hinv : inv ∈ invocations (syncEvents c g r opt w)) :
    ("--src-creds=" ++ c.DecodeJSONAuth opt.SrcAuth ∈ inv ↔ c.DecodeJSONAuth opt.SrcAuth ≠ "") ∧
    ("--dest-creds=" ++ c.DecodeJSONAuth opt.TrgtAuth ∈ inv ↔
      c.DecodeJSONAuth opt.TrgtAuth ≠ "") ∧
    (∀ tok ∈ inv, StartsWith tok "--src-creds=" →
      c.DecodeJSONAuth opt.SrcAuth ≠ "" ∧ tok = "--src-creds=" ++ c.DecodeJSONAuth opt.SrcAuth) ∧
    (∀ tok ∈ inv, StartsWith tok "--dest-creds=" →
      c.DecodeJSONAuth opt.TrgtAuth ≠ "" ∧
        tok = "--dest-creds=" ++ c.DecodeJSONAuth opt.TrgtAuth) := by
  have hsrc : ∀ tok ∈ inv, StartsWith tok "--src-creds=" →
      c.DecodeJSONAuth opt.SrcAuth ≠ "" ∧
        tok = "--src-creds=" ++ c.DecodeJSONAuth opt.SrcAuth := by
    intro tok hmem hst
    have hflag : IsSrcDestFlag tok :=
      Or.inl (List.IsPrefix.trans (by simp) hst)
    rw [flag_mem_invocation c g r opt w inv hplat hinv tok hflag, mem_syncCmd] at hmem
    rcases hmem with h | h | ⟨_, h⟩ | ⟨_, h⟩ | ⟨_, h⟩ | ⟨_, h⟩ | ⟨hne, h⟩ | ⟨_, h⟩
    · subst h; simp [StartsWith] at hst
    · subst h; by_cases hm : g.skopeoMode = "sync" <;> simp [hm, StartsWith] at hst
    · subst h; simp [StartsWith] at hst
    · subst h; simp [StartsWith] at hst
    · subst h; simp [StartsWith, String.data_append] at hst
    · subst h; simp [StartsWith, String.data_append] at hst
    · exact ⟨hne, h⟩
    · subst h; simp [StartsWith, String.data_append] at hst
  have hdst : ∀ tok ∈ inv, StartsWith tok "--dest-creds=" →
      c.DecodeJSONAuth opt.TrgtAuth ≠ "" ∧
        tok = "--dest-creds=" ++ c.DecodeJSONAuth opt.TrgtAuth := by
    intro tok hmem hst
    have hflag : IsSrcDestFlag tok :=
      Or.inr (List.IsPrefix.trans (by simp) hst)
    rw [flag_mem_invocation c g r opt w inv hplat hinv tok hflag, mem_syncCmd] at hmem
    rcases hmem with h | h | ⟨_, h⟩ | ⟨_, h⟩ | ⟨_, h⟩ | ⟨_, h⟩ | ⟨_, h⟩ | ⟨hne, h⟩
    · subst h; simp [StartsWith] at hst
    · subst h; by_cases hm : g.skopeoMode = "sync" <;> simp [hm, StartsWith] at hst
    · subst h; simp [StartsWith] at hst
    · subst h; simp [StartsWith] at hst
    · subst h; simp [StartsWith, String.data_append] at hst
    · subst h; simp [StartsWith, String.data_append] at hst
    · subst h; simp [StartsWith, String.data_append] at hst
    · exact ⟨hne, h⟩
  refine ⟨⟨fun h => (hsrc _ h (startsWith_append _ _)).1, fun h => ?_⟩,
    ⟨fun h => (hdst _ h (startsWith_append _ _)).1, fun h => ?_⟩, hsrc, hdst⟩
  · rw [flag_mem_invocation c g r opt w inv hplat hinv _
      (Or.inl (List.IsPrefix.trans (by simp) (startsWith_append "--src-creds=" _))), mem_syncCmd]
    exact Or.inr (Or.inr (Or.inr (Or.inr (Or.inr (Or.inr (Or.inl ⟨h, rfl⟩))))))
  · rw [flag_mem_invocation c g r opt w inv hplat hinv _
      (Or.inr (List.IsPrefix.trans (by simp) (startsWith_append "--dest-creds=" _))), mem_syncCmd]
    exact Or.inr (Or.inr (Or.inr (Or.inr (Or.inr (Or.inr (Or.inr ⟨h, rfl⟩))))))

/-- C7 on the expanding example request (platform `linux/arm64`): the source
credential `alice:secret` is passed, and no token starts with `--dest-creds=`. -/
theorem C7_witness :
    demoExpandInvocation
      ∈ invocations (syncEvents demoAllGood demoGlobals demoRelay demoExpandOptions []) ∧
    "--src-creds=" ++ "alice:secret" ∈ demoExpandInvocation ∧
    ∀ tok ∈ demoExpandInvocation, ¬ StartsWith tok "--dest-creds=" :=
  ⟨by decide,
    (C7_credentials demoAllGood demoGlobals demoRelay demoExpandOptions []
      demoExpandInvocation (fun _ _ => demoCollab_appendsOverrides _ _ _)
      (by decide)).1.mpr (by decide),
    fun tok hmem hst =>
      (((C7_credentials demoAllGood demoGlobals demoRelay demoExpandOptions []
        demoExpandInvocation (fun _ _ => demoCollab_appendsOverrides _ _ _)
        (by decide)).2.2.2 tok hmem hst).1) rfl⟩

/-- C8: in every command line `Sync` runs, `"--src-cert-dir=" ++
CertsDirForRegistry(h_s)` is present exactly when the registry host `h_s` split
from `SrcRef` is non-empty, and `"--dest-cert-dir=" ++ certsBaseDir ++ "/" ++
WithoutPort(h_t)` is present exactly when the host `h_t` split from `TrgtRef` is
non-empty, independently (for platform `""` and `"all"`, and for any other
platform when the platform collaborator appends only `--override-` flags).
Scenario: for `SrcRef = "reg.example.com/ns/img"`, `TrgtRef =
"mirror.example.com/ns/img"`, explicit tags `v1`, `v2` and the mode unset (empty,
or defaulted to `copy`), with collaborators that split `mirror.example.com` off
the target, leave it unchanged when stripping the port and join a tag with `:`,
there are exactly two runs, both containing `copy`, the first with
`docker://reg.example.com/ns/img:v1` immediately followed by
`docker://mirror.example.com/ns/img:v1`, the second likewise for `v2`, both
containing the dest-cert-dir flag for `certsBaseDir` and `mirror.example.com`. -/
theorem C8_cert_dirs (c : Collab) (g : Globals) (r : SkopeoRelay)
    (opt : SyncOptions) (w : Trace)
    (hplat : opt.Platform ≠ "" → opt.Platform ≠ "all" → AppendsOverrides c opt.Platform) :
    (∀ inv ∈ invocations (syncEvents c g r opt w),
      ("--src-cert-dir=" ++ c.CertsDirForRegistry g (c.SplitRef opt.SrcRef).1 ∈ inv ↔
        (c.SplitRef opt.SrcRef).1 ≠ "") ∧
      ("--dest-cert-dir=" ++ g.certsBaseDir ++ "/" ++ c.WithoutPort (c.SplitRef opt.TrgtRef).1
          ∈ inv ↔ (c.SplitRef opt.TrgtRef).1 ≠ "")) ∧
    (opt.SrcRef = "reg.example.com/ns/img" → opt.TrgtRef = "mirror.example.com/ns/img" →
      opt.Tags = TagSet.explicit ["v1", "v2"] →
      (g.skopeoMode = "" ∨ g.skopeoMode = "copy") →
      (c.SplitRef "mirror.example.com/ns/img").1 = "mirror.example.com" →
      c.WithoutPort "mirror.example.com" = "mirror.example.com" →
      (∀ t, c.JoinRefsAndTag "reg.example.com/ns/img" "mirror.example.com/ns/img" t
        = ("reg.example.com/ns/img:" ++ t, "mirror.example.com/ns/img:" ++ t)) →
      ∃ inv1 inv2, invocations (syncEvents c g r opt w) = [inv1, inv2] ∧
        "copy" ∈ inv1 ∧ "copy" ∈ inv2 ∧
        ["docker://reg.example.com/ns/img:v1", "docker://mirror.example.com/ns/img:v1"]
          <:+: inv1 ∧
        ["docker://reg.example.com/ns/img:v2", "docker://mirror.example.com/ns/img:v2"]
          <:+: inv2 ∧
        "--dest-cert-dir=" ++ g.certsBaseDir ++ "/mirror.example.com" ∈ inv1 ∧
        "--dest-cert-dir=" ++ g.certsBaseDir ++ "/mirror.example.com" ∈ inv2) := by
  have hsrcflag : IsSrcDestFlag
      ("--src-cert-dir=" ++ c.CertsDirForRegistry g (c.SplitRef opt.SrcRef).1) :=
    Or.inl (List.IsPrefix.trans (by simp) (startsWith_append "--src-cert-dir=" _))
  have hdstflag : IsSrcDestFlag
      ("--dest-cert-dir=" ++ g.certsBaseDir ++ "/"
        ++ c.WithoutPort (c.SplitRef opt.TrgtRef).1) :=
    Or.inr (by simp [StartsWith, String.data_append])
  have hgen : ∀ inv ∈ invocations (syncEvents c g r opt w),
      ("--src-cert-dir=" ++ c.CertsDirForRegistry g (c.SplitRef opt.SrcRef).1 ∈ inv ↔
        (c.SplitRef opt.SrcRef).1 ≠ "") ∧
      ("--dest-cert-dir=" ++ g.certsBaseDir ++ "/" ++ c.WithoutPort (c.SplitRef opt.TrgtRef).1
          ∈ inv ↔ (c.SplitRef opt.TrgtRef).1 ≠ "") := by
    intro inv hinv
    constructor
    · rw [flag_mem_invocation c g r opt w inv hplat hinv _ hsrcflag, mem_syncCmd]
      by_cases hm : g.skopeoMode = "sync" <;>
        simp [hm, String.ext_iff, String.data_append]
    · rw [flag_mem_invocation c g r opt w inv hplat hinv _ hdstflag, mem_syncCmd]
      by_cases hm : g.skopeoMode = "sync" <;>
        simp [hm, String.ext_iff, String.data_append]
  refine ⟨hgen, ?_⟩
  intro hs ht htags hmode hsplit hport hjoin
  have hexp : (TagSet.Expand opt.Tags (syncLister c g opt) w).1 = Except.ok ["v1", "v2"] := by
    simp [htags, TagSet.Expand]
  have hne : g.skopeoMode ≠ "sync" := by
    rcases hmode with h | h <;> simp [h]
  have hinvs := (sync_ok c g r opt w _ hexp).1
  have hcopy : "copy" ∈ syncCmd c g opt := by
    rw [mem_syncCmd]; simp [hne]
  have hreg : (c.SplitRef opt.TrgtRef).1 ≠ "" := by
    rw [ht, hsplit]; simp
  have hplat2 : opt.Platform ≠ "" → opt.Platform ≠ "all" → AppendsOnly c opt.Platform :=
    fun h1 h2 => (hplat h1 h2).appendsOnly
  have key : ∀ t, "copy" ∈ syncArgs c opt (syncCmd c g opt) t ∧
      ["docker://reg.example.com/ns/img:" ++ t, "docker://mirror.example.com/ns/img:" ++ t]
        <:+: syncArgs c opt (syncCmd c g opt) t := by
    intro t
    obtain ⟨post, hpost⟩ := syncArgs_begins c opt (syncCmd c g opt) t hplat2
    rw [hs, ht, hjoin t] at hpost
    constructor
    · rw [← hpost]; simp [hcopy]
    · refine ⟨syncCmd c g opt, post, ?_⟩
      rw [← hpost]
      simp [String.ext_iff, String.data_append]
  have hflag : ∀ inv ∈ invocations (syncEvents c g r opt w),
      "--dest-cert-dir=" ++ g.certsBaseDir ++ "/mirror.example.com" ∈ inv := by
    intro inv hinv
    have := ((hgen inv hinv).2).mpr hreg
    rwa [ht, hsplit, hport, String.append_assoc] at this
  have h1 := hflag (syncArgs c opt (syncCmd c g opt) "v1") (by rw [hinvs]; simp)
  have h2 := hflag (syncArgs c opt (syncCmd c g opt) "v2") (by rw [hinvs]; simp)
  exact ⟨_, _, hinvs, (key "v1").1, (key "v2").1, (key "v1").2, (key "v2").2, h1, h2⟩

/-- C8 on the example request: the scenario with the example collaborators and
the package state left by `NewSkopeoRelay` with an empty mode. -/
theorem C8_witness :
    ∃ inv1 inv2,
      invocations (syncEvents demoAllGood demoGlobals demoRelay demoOptions []) = [inv1, inv2] ∧
      "copy" ∈ inv1 ∧ "copy" ∈ inv2 ∧
      ["docker://reg.example.com/ns/img:v1", "docker://mirror.example.com/ns/img:v1"]
        <:+: inv1 ∧
      ["docker://reg.example.com/ns/img:v2", "docker://mirror.example.com/ns/img:v2"]
        <:+: inv2 ∧
      "--dest-cert-dir=" ++ demoGlobals.certsBaseDir ++ "/mirror.example.com" ∈ inv1 ∧
      "--dest-cert-dir=" ++ demoGlobals.certsBaseDir ++ "/mirror.example.com" ∈ inv2 :=
  (C8_cert_dirs demoAllGood demoGlobals demoRelay demoOptions []
    (fun h => absurd rfl h)).2 rfl rfl rfl (Or.inr rfl) rfl rfl (fun _ => rfl)

/-- C9: when the tag selector is the expand marker, `Sync` queries the registry
listing exactly once, with `SrcRef`, the decoded source credential, the source
certificate directory (`CertsDirForRegistry(h_s)` when the host `h_s` split from
`SrcRef` is non-empty, the empty string otherwise) and `SrcSkipTLSVerify`; when
the selector names explicit tags, the listing is not queried and the runs are
those of exactly these tags, in order. -/
theorem C9_tag_listing (c : Collab) (g : Globals) (r : SkopeoRelay)
    (opt : SyncOptions) (w : Trace) :
    (opt.Tags = TagSet.expand →
      listings (syncEvents c g r opt w)
        = [(opt.SrcRef, c.DecodeJSONAuth opt.SrcAuth,
            (if (c.SplitRef opt.SrcRef).1 ≠ "" then
              c.CertsDirForRegistry g (c.SplitRef opt.SrcRef).1 else ""),
            opt.SrcSkipTLSVerify)]) ∧
    (∀ ts, opt.Tags = TagSet.explicit ts →
      listings (syncEvents c g r opt w) = [] ∧
      invocations (syncEvents c g r opt w) = ts.map (syncArgs c opt (syncCmd c g opt))) := by
  have hl := sync_listings c g r opt w
  refine ⟨fun h => ?_, fun ts h => ⟨?_, ?_⟩⟩
  · rw [hl, h]; rfl
  · rw [hl, h]
  · exact (sync_ok c g r opt w ts (by simp [h, TagSet.Expand])).1

/-- C9 on the expanding example request: one listing call, with the example
source reference, credential, certificate directory and TLS setting. -/
theorem C9_witness :
    listings (syncEvents demoAllGood demoGlobals demoRelay demoExpandOptions [])
      = [("reg.example.com/ns/img", "alice:secret", "/etc/skopeo/certs.d/reg.example.com",
          true)] :=
  (C9_tag_listing demoAllGood demoGlobals demoRelay demoExpandOptions []).1 rfl

/-- C10: `NewSkopeoRelay` with a configuration record sets `skopeoBinary` to
`conf.Binary` when that is non-empty and leaves it unchanged otherwise, does the
same for `certsBaseDir` with `conf.CertsDir`, and sets `skopeoMode` to `conf.Mode`
verbatim when that is non-empty and to `copy` otherwise; without a record the
package state is unchanged. It is a total function (it has no error result), and
the relay it returns always has the supplied writer as its output. -/
theorem C10_configure (conf : RelayConfig) (confOrNil : Option RelayConfig)
    (out : Option Writer) (g : Globals) :
    (NewSkopeoRelay (some conf) out g).2.skopeoBinary
      = (if conf.Binary ≠ "" then conf.Binary else g.skopeoBinary) ∧
    (NewSkopeoRelay (some conf) out g).2.certsBaseDir
      = (if conf.CertsDir ≠ "" then conf.CertsDir else g.certsBaseDir) ∧
    (NewSkopeoRelay (some conf) out g).2.skopeoMode
      = (if conf.Mode ≠ "" then conf.Mode else "copy") ∧
    (NewSkopeoRelay none out g).2 = g ∧
    (NewSkopeoRelay confOrNil out g).1.wrOut = out := by
  refine ⟨?_, ?_, ?_, rfl, ?_⟩
  · simp only [NewSkopeoRelay]; split_ifs <;> rfl
  · simp only [NewSkopeoRelay]; split_ifs <;> rfl
  · simp only [NewSkopeoRelay]; split_ifs <;> rfl
  · cases out <;> simp [NewSkopeoRelay]

/-- C10 on an unvalidated mode string: it is adopted verbatim, the other two
settings keep their values. -/
theorem C10_witness :
    (NewSkopeoRelay (some { Binary := "", CertsDir := "", Mode := "mirror" })
        (some { id := 7 }) demoInitial)
      = ({ wrOut := some { id := 7 } },
         { skopeoBinary := "skopeo", certsBaseDir := "/etc/skopeo/certs.d",
           skopeoMode := "mirror" }) ∧
    (NewSkopeoRelay (some { Binary := "", CertsDir := "", Mode := "mirror" })
        (some { id := 7 }) demoInitial).2.skopeoMode
      = (if "mirror" ≠ "" then "mirror" else "copy") :=
  ⟨by decide,
    (C10_configure { Binary := "", CertsDir := "", Mode := "mirror" } none
      (some { id := 7 }) demoInitial).2.2.1⟩

end Dregsy
